import Mathlib

/-!
Verification of the n-body physics core (`src/physics/`) of py-nbody.

Shallow embedding conventions:
* Python floats are modelled by `ℚ` (exact arithmetic); the square root,
  which is not rational-valued, is threaded through the definitions as an
  explicit function parameter `sqrt : ℚ → ℚ`, so every property is stated
  for the square-root function actually used (hypotheses such as
  `sqrt 0 = 0` record the facts of `np.sqrt` a proof relies on).
* In-place mutation of `Body` objects becomes explicit state passing:
  each operation returns the updated body / body list.
* The integrators' force-computation callback is modelled as a function
  `F : α → List Body → α × List Body` threading an arbitrary
  instrumentation state `α` (e.g. `α = ℕ` counts force evaluations,
  `α = Unit` recovers the pure semantics).
* Methods that may raise (`ValueError`) return `Except String _`.
-/

/-- `Vector3D` (src/physics/vector3d.py): three rational components. -/
@[ext]
structure Vec3 where
  x : ℚ
  y : ℚ
  z : ℚ
deriving DecidableEq, Repr

namespace Vec3

instance : Zero Vec3 := ⟨⟨0, 0, 0⟩⟩

/-- `__add__`: componentwise vector addition. -/
instance : Add Vec3 := ⟨fun a b => ⟨a.x + b.x, a.y + b.y, a.z + b.z⟩⟩

/-- `__sub__`: componentwise vector subtraction. -/
instance : Sub Vec3 := ⟨fun a b => ⟨a.x - b.x, a.y - b.y, a.z - b.z⟩⟩

/-- `__neg__`: componentwise negation. -/
instance : Neg Vec3 := ⟨fun a => ⟨-a.x, -a.y, -a.z⟩⟩

/-- `__mul__`: scalar multiplication `v * s`. -/
instance : HMul Vec3 ℚ Vec3 := ⟨fun v s => ⟨v.x * s, v.y * s, v.z * s⟩⟩

/-- `__truediv__`: scalar division `v / s`. -/
instance : HDiv Vec3 ℚ Vec3 := ⟨fun v s => ⟨v.x / s, v.y / s, v.z / s⟩⟩

instance : AddCommGroup Vec3 where
  add_assoc a b c := Vec3.ext (add_assoc a.x b.x c.x) (add_assoc a.y b.y c.y)
    (add_assoc a.z b.z c.z)
  zero_add a := Vec3.ext (zero_add a.x) (zero_add a.y) (zero_add a.z)
  add_zero a := Vec3.ext (add_zero a.x) (add_zero a.y) (add_zero a.z)
  add_comm a b := Vec3.ext (add_comm a.x b.x) (add_comm a.y b.y) (add_comm a.z b.z)
  neg_add_cancel a := Vec3.ext (neg_add_cancel a.x) (neg_add_cancel a.y)
    (neg_add_cancel a.z)
  sub_eq_add_neg a b := Vec3.ext (sub_eq_add_neg a.x b.x) (sub_eq_add_neg a.y b.y)
    (sub_eq_add_neg a.z b.z)
  nsmul := nsmulRec
  zsmul := zsmulRec

/-- `magnitude_squared`: `x² + y² + z²`. -/
def magnitude_squared (v : Vec3) : ℚ := v.x ^ 2 + v.y ^ 2 + v.z ^ 2

/-- `magnitude`: `sqrt (x² + y² + z²)`, with `sqrt` the ambient square root. -/
def magnitude (sqrt : ℚ → ℚ) (v : Vec3) : ℚ := sqrt v.magnitude_squared

/-- `dot`: dot product. -/
def dot (a b : Vec3) : ℚ := a.x * b.x + a.y * b.y + a.z * b.z

/-- `cross`: cross product. -/
def cross (a b : Vec3) : Vec3 :=
  ⟨a.y * b.z - a.z * b.y, a.z * b.x - a.x * b.z, a.x * b.y - a.y * b.x⟩

/-- `distance_to`: `(self - other).magnitude()`. -/
def distance_to (sqrt : ℚ → ℚ) (a b : Vec3) : ℚ := magnitude sqrt (a - b)

/-- `normalize`: unit vector, returning the zero vector for magnitude 0. -/
def normalize (sqrt : ℚ → ℚ) (v : Vec3) : Vec3 :=
  let mag := magnitude sqrt v
  if mag = 0 then 0 else v / mag

end Vec3

/-- `Body` (src/physics/body.py): mutable point mass.  The two fields
`kinetic_energy` and `potential_energy` mirror the cached scalar attributes
the Python constructor initialises to `0.0`. -/
structure Body where
  mass : ℚ
  position : Vec3
  velocity : Vec3
  acceleration : Vec3
  name : String
  color : String
  radius : ℚ
  trajectory : List Vec3
  kinetic_energy : ℚ
  potential_energy : ℚ
deriving DecidableEq, Repr

instance : Inhabited Body :=
  ⟨{ mass := 1, position := 0, velocity := 0, acceleration := 0,
     name := "Unnamed Body", color := "blue", radius := 1,
     trajectory := [0], kinetic_energy := 0, potential_energy := 0 }⟩

namespace Body

/-- `Body.__init__`.  The constructor performs no validation whatsoever
(in particular there is no mass check), so no error branch exists; it is
wrapped in `Except` because constructors are where Python `ValueError`s
would surface. -/
def init (mass : ℚ) (position velocity : Vec3) (name : String := "Unnamed Body")
    (color : String := "blue") (radius : ℚ := 1) : Except String Body :=
  .ok { mass := mass, position := position, velocity := velocity,
        acceleration := 0, name := name, color := color, radius := radius,
        trajectory := [position], kinetic_energy := 0, potential_energy := 0 }

/-- `update_position`: `position += velocity * dt`, then append the new
position to the trajectory. -/
def update_position (dt : ℚ) (b : Body) : Body :=
  let p := b.position + b.velocity * dt
  { b with position := p, trajectory := b.trajectory ++ [p] }

/-- `update_velocity`: `velocity += acceleration * dt`. -/
def update_velocity (dt : ℚ) (b : Body) : Body :=
  { b with velocity := b.velocity + b.acceleration * dt }

/-- `apply_force`: overwrite `acceleration` with `force / mass`. -/
def apply_force (force : Vec3) (b : Body) : Body :=
  { b with acceleration := force / b.mass }

/-- `add_force`: `acceleration += force / mass`. -/
def add_force (force : Vec3) (b : Body) : Body :=
  { b with acceleration := b.acceleration + force / b.mass }

/-- `reset_forces`: zero the acceleration. -/
def reset_forces (b : Body) : Body :=
  { b with acceleration := 0 }

/-- `calculate_kinetic_energy`: returns `0.5 * m * |v|²` and caches it in
the `kinetic_energy` field (the Python method mutates `self`). -/
def calculate_kinetic_energy (b : Body) : ℚ × Body :=
  let ke := 1/2 * b.mass * b.velocity.magnitude_squared
  (ke, { b with kinetic_energy := ke })

/-- `distance_to`: distance between the two bodies' positions. -/
def distance_to (sqrt : ℚ → ℚ) (b other : Body) : ℚ :=
  b.position.distance_to sqrt other.position

/-- `momentum`: `velocity * mass`. -/
def momentum (b : Body) : Vec3 := b.velocity * b.mass

/-- `angular_momentum` about `origin` (default the zero vector):
`(position - origin) × momentum`. -/
def angular_momentum (b : Body) (origin : Vec3 := 0) : Vec3 :=
  (b.position - origin).cross b.momentum

/-- `clear_trajectory`: reset the history to the single current position. -/
def clear_trajectory (b : Body) : Body :=
  { b with trajectory := [b.position] }

/-- Every field of a body except its acceleration, bundled; used to state
and propagate frame conditions ("this operation touches only the
acceleration"). -/
def core (b : Body) :
    ℚ × Vec3 × Vec3 × List Vec3 × String × String × ℚ × ℚ × ℚ :=
  (b.mass, b.position, b.velocity, b.trajectory, b.name, b.color, b.radius,
   b.kinetic_energy, b.potential_energy)

end Body

/-- `1e-10`, the near-coincidence threshold in forces.py. -/
def eps10 : ℚ := 1 / 10 ^ 10

/-- Replace the element at index `n` by `f` of it (out-of-range: no-op);
models in-place mutation `bodies[n] = f(bodies[n])` of a Python list. -/
def listModify (f : α → α) : ℕ → List α → List α
  | _, [] => []
  | 0, a :: as => f a :: as
  | n + 1, a :: as => a :: listModify f n as

/-- The index pairs `(i, j)`, `i < j < n`, in the enumeration order of the
nested loops `for i in range(n): for j in range(i+1, n)`. -/
def pairsUpTo (n : ℕ) : List (ℕ × ℕ) :=
  ((List.range n).map (fun i => (List.range' (i + 1) (n - (i + 1))).map (fun j => (i, j)))).flatten

namespace Forces

/-- `GravitationalForceCalculator._calculate_pairwise_force`: the force on
`b1` due to `b2`; `s2` is the calculator's precomputed `softening_squared`. -/
def calculate_pairwise_force (sqrt : ℚ → ℚ) (G s2 : ℚ) (b1 b2 : Body) : Vec3 :=
  let r_vector := b2.position - b1.position
  let r_squared := r_vector.magnitude_squared + s2
  let r := sqrt r_squared
  if r < eps10 then 0
  else
    let r_hat := r_vector / r
    let force_magnitude := G * b1.mass * b2.mass / r_squared
    r_hat * force_magnitude

/-- The body of `calculate_forces`'s inner loop for the index pair `p`:
compute the pairwise force once, add it to body `p.1` and its negation to
body `p.2`. -/
def apply_pair (sqrt : ℚ → ℚ) (G s2 : ℚ) (bs : List Body) (p : ℕ × ℕ) : List Body :=
  let force := calculate_pairwise_force sqrt G s2 (bs.getD p.1 default) (bs.getD p.2 default)
  listModify (Body.add_force (-force)) p.2 (listModify (Body.add_force force) p.1 bs)

/-- `GravitationalForceCalculator.calculate_forces`: reset all
accelerations, then accumulate `±F/m` over all pairs `i < j`. -/
def calculate_forces (sqrt : ℚ → ℚ) (G s2 : ℚ) (bodies : List Body) : List Body :=
  (pairsUpTo bodies.length).foldl (apply_pair sqrt G s2) (bodies.map Body.reset_forces)

/-- The net force `calculate_forces` applies to body `i` on account of body
`j` (read off the loop body: for `i < j` the pair `(i, j)` adds the pairwise
force to `i`; for `j < i` the pair `(j, i)` adds its negation to `i`;
nothing relates a body to itself). -/
def forceOn (sqrt : ℚ → ℚ) (G s2 : ℚ) (bs : List Body) (i j : ℕ) : Vec3 :=
  if i < j then calculate_pairwise_force sqrt G s2 (bs.getD i default) (bs.getD j default)
  else if j < i then
    -(calculate_pairwise_force sqrt G s2 (bs.getD j default) (bs.getD i default))
  else 0

/-- The acceleration increment the loop iteration for the index pair `p`
gives body `i`: `+F/m_i` when `i` is the pair's first component, `−F/m_i`
when it is the second (forces evaluated on the original body list, whose
masses and positions the loop never changes). -/
def pairContrib (sqrt : ℚ → ℚ) (G s2 : ℚ) (bs : List Body) (p : ℕ × ℕ)
    (i : ℕ) : Vec3 :=
  (if p.1 = i then
    calculate_pairwise_force sqrt G s2 (bs.getD p.1 default) (bs.getD p.2 default)
      / (bs.getD i default).mass
   else 0)
  + (if p.2 = i then
      -(calculate_pairwise_force sqrt G s2 (bs.getD p.1 default) (bs.getD p.2 default))
        / (bs.getD i default).mass
     else 0)

/-- One pair's contribution to `calculate_potential_energy`: the loop body
subtracts `G·m_i·m_j/r` when `r > 1e-10` and contributes nothing otherwise. -/
def pe_pair_term (sqrt : ℚ → ℚ) (G : ℚ) (b1 b2 : Body) : ℚ :=
  let r := b1.distance_to sqrt b2
  if r > eps10 then -(G * b1.mass * b2.mass / r) else 0

/-- `calculate_potential_energy`: `-G Σ_{i<j} m_i m_j / r_ij`, skipping
near-coincident pairs. -/
def calculate_potential_energy (sqrt : ℚ → ℚ) (G : ℚ) (bodies : List Body) : ℚ :=
  ((pairsUpTo bodies.length).map
    (fun p => pe_pair_term sqrt G (bodies.getD p.1 default) (bodies.getD p.2 default))).sum

/-- `calculate_total_energy`: sum of the (cache-updating) per-body kinetic
energies, plus the potential energy; returns
`((kinetic, potential, total), updated bodies)`. -/
def calculate_total_energy (sqrt : ℚ → ℚ) (G : ℚ) (bodies : List Body) :
    (ℚ × ℚ × ℚ) × List Body :=
  let pairsKE := bodies.map Body.calculate_kinetic_energy
  let kinetic := (pairsKE.map Prod.fst).sum
  let bodies2 := pairsKE.map Prod.snd
  let potential := calculate_potential_energy sqrt G bodies2
  ((kinetic, potential, kinetic + potential), bodies2)

/-- `calculate_total_momentum`: vector sum of the bodies' momenta. -/
def calculate_total_momentum (bodies : List Body) : Vec3 :=
  bodies.foldl (fun acc b => acc + b.momentum) 0

/-- `calculate_total_angular_momentum` about `origin`. -/
def calculate_total_angular_momentum (bodies : List Body) (origin : Vec3 := 0) : Vec3 :=
  bodies.foldl (fun acc b => acc + b.angular_momentum origin) 0

/-- `calculate_center_of_mass`: mass-weighted average position, the zero
vector when the total mass is zero. -/
def calculate_center_of_mass (bodies : List Body) : Vec3 :=
  let total_mass := (bodies.map Body.mass).sum
  if total_mass = 0 then 0
  else
    ⟨(bodies.map (fun b => b.mass * b.position.x)).sum / total_mass,
     (bodies.map (fun b => b.mass * b.position.y)).sum / total_mass,
     (bodies.map (fun b => b.mass * b.position.z)).sum / total_mass⟩

end Forces

/-- Three-list pointwise zip, used to mirror the `enumerate`-indexed
parallel updates of RK4. -/
def zipWith3 (f : α → β → γ → δ) : List α → List β → List γ → List δ
  | a :: as, b :: bs, c :: cs => f a b c :: zipWith3 f as bs cs
  | _, _, _ => []

namespace Integrators

/-!
`step(bodies, dt, force_calculator)` of each integrator
(src/physics/integrators.py).  The force callback is modelled as
`F : α → List Body → α × List Body`, threading an instrumentation state
`α` through each invocation: instantiating `α := Unit` with
`F := fun _ bs => ((), Forces.calculate_forces …)` gives the semantics the
engine uses, while `α := ℕ` with a counter increment per call counts force
evaluations.
-/

/-- `EulerIntegrator.step`: one force evaluation, then every velocity is
updated (`v += a·dt`), then every position (`r += v·dt`, appending one
trajectory sample). -/
def stepEuler (F : α → List Body → α × List Body) (dt : ℚ) (a : α)
    (bodies : List Body) : α × List Body :=
  let (a1, bs) := F a bodies
  let bs1 := bs.map (Body.update_velocity dt)
  let bs2 := bs1.map (Body.update_position dt)
  (a1, bs2)

/-- The per-stage working-state assignment of RK4:
`body.position = ps[i]; body.velocity = vs[i]`. -/
def setWorkState (bs : List Body) (ps vs : List Vec3) : List Body :=
  zipWith3 (fun b p v => { b with position := p, velocity := v }) bs ps vs

/-- `RK4Integrator.step`: snapshot the initial positions/velocities, make
four force evaluations (at the initial state and at the three intermediate
working states), and combine the four stage increments from the snapshot
with weights `(1,2,2,1)/6`, appending one trajectory sample per body. -/
def stepRK4 (F : α → List Body → α × List Body) (dt : ℚ) (a : α)
    (bodies : List Body) : α × List Body :=
  let initial_positions := bodies.map Body.position
  let initial_velocities := bodies.map Body.velocity
  -- k1: derivatives at t
  let (a1, w1) := F a bodies
  let k1_pos : List Vec3 := w1.map (fun b => b.velocity * dt)
  let k1_vel : List Vec3 := w1.map (fun b => b.acceleration * dt)
  -- k2: derivatives at t + dt/2 using k1
  let (a2, w2) := F a1 (setWorkState w1
    (List.zipWith (fun p k => p + k * ((1 : ℚ)/2)) initial_positions k1_pos)
    (List.zipWith (fun v k => v + k * ((1 : ℚ)/2)) initial_velocities k1_vel))
  let k2_pos : List Vec3 := w2.map (fun b => b.velocity * dt)
  let k2_vel : List Vec3 := w2.map (fun b => b.acceleration * dt)
  -- k3: derivatives at t + dt/2 using k2
  let (a3, w3) := F a2 (setWorkState w2
    (List.zipWith (fun p k => p + k * ((1 : ℚ)/2)) initial_positions k2_pos)
    (List.zipWith (fun v k => v + k * ((1 : ℚ)/2)) initial_velocities k2_vel))
  let k3_pos : List Vec3 := w3.map (fun b => b.velocity * dt)
  let k3_vel : List Vec3 := w3.map (fun b => b.acceleration * dt)
  -- k4: derivatives at t + dt using k3
  let (a4, w4) := F a3 (setWorkState w3
    (List.zipWith (· + ·) initial_positions k3_pos)
    (List.zipWith (· + ·) initial_velocities k3_vel))
  let k4_pos : List Vec3 := w4.map (fun b => b.velocity * dt)
  let k4_vel : List Vec3 := w4.map (fun b => b.acceleration * dt)
  -- final combine from the snapshotted initial state
  let finalBodies := (List.range w4.length).map (fun i =>
    let b := w4.getD i default
    let pos_increment := (k1_pos.getD i 0 + k2_pos.getD i 0 * (2 : ℚ)
      + k3_pos.getD i 0 * (2 : ℚ) + k4_pos.getD i 0) / (6 : ℚ)
    let vel_increment := (k1_vel.getD i 0 + k2_vel.getD i 0 * (2 : ℚ)
      + k3_vel.getD i 0 * (2 : ℚ) + k4_vel.getD i 0) / (6 : ℚ)
    let p := initial_positions.getD i 0 + pos_increment
    { b with position := p,
             velocity := initial_velocities.getD i 0 + vel_increment,
             trajectory := b.trajectory ++ [p] })
  (a4, finalBodies)

/-- `LeapfrogIntegrator.step`: on the first call (flag `first_step = true`)
bootstrap with one extra force evaluation and a half-step velocity update,
clearing the flag; then (every call) evaluate forces, update velocities by
a full step, and update positions with the new velocities.  Returns the
instrumentation state, the updated bodies and the new `first_step` flag. -/
def stepLeapfrog (F : α → List Body → α × List Body) (dt : ℚ) (a : α)
    (bodies : List Body) (first_step : Bool) : α × List Body × Bool :=
  let (a1, bs1, first1) :=
    if first_step then
      let (a', bs') := F a bodies
      (a', bs'.map (fun b => { b with velocity := b.velocity + b.acceleration * (dt / 2) }),
       false)
    else (a, bodies, first_step)
  let (a2, bs2) := F a1 bs1
  let bs3 := bs2.map (fun b => { b with velocity := b.velocity + b.acceleration * dt })
  let bs4 := bs3.map (Body.update_position dt)
  (a2, bs4, first1)

end Integrators

/-- The integrator variant selected at engine construction, carrying the
Leapfrog instance's `first_step` lifecycle flag (`true` = Cold, i.e. the
half-step bootstrap is still pending; `false` = Warm). -/
inductive IntegratorState where
  | euler
  | rk4
  | leapfrog (first_step : Bool)
deriving DecidableEq, Repr

/-- A sample of `PhysicsEngine.energy_history`. -/
structure EnergySample where
  time : ℚ
  kinetic : ℚ
  potential : ℚ
  total : ℚ
deriving DecidableEq, Repr

/-- A sample of `PhysicsEngine.momentum_history`. -/
structure MomentumSample where
  time : ℚ
  momentum : Vec3
deriving DecidableEq, Repr

/-- A sample of `PhysicsEngine.angular_momentum_history`. -/
structure AngularMomentumSample where
  time : ℚ
  angular_momentum : Vec3
deriving DecidableEq, Repr

/-- `PhysicsEngine` (src/physics/engine.py): the body collection, the
selected integrator (with its lifecycle flag), the force-calculator
configuration (`G`, precomputed `softening_squared`), the clock, the step
counter, the time step and the three conservation histories.  Wall-clock
performance fields are outside the numerical model and omitted. -/
structure Engine where
  integrator : IntegratorState
  G : ℚ
  softening_squared : ℚ
  bodies : List Body
  time : ℚ
  step_count : ℕ
  dt : ℚ
  energy_history : List EnergySample
  momentum_history : List MomentumSample
  angular_momentum_history : List AngularMomentumSample
deriving DecidableEq, Repr

namespace Engine

/-- `set_time_step`: assigns `self.dt = dt` with no validation — the method
body is a bare assignment, so no error branch exists. -/
def set_time_step (dt : ℚ) (e : Engine) : Except String Engine :=
  .ok { e with dt := dt }

/-- `reset_simulation`: zero the clock and step counter, clear the three
histories, and clear every body's trajectory.  The integrator field is not
touched (in particular a Leapfrog `first_step` flag keeps its value). -/
def reset_simulation (e : Engine) : Engine :=
  { e with time := 0, step_count := 0,
           energy_history := [], momentum_history := [],
           angular_momentum_history := [],
           bodies := e.bodies.map Body.clear_trajectory }

/-- `_record_conservation_quantities`: append one sample to each of the
three histories (the kinetic-energy computation updates each body's
cached `kinetic_energy` field). -/
def record_conservation_quantities (sqrt : ℚ → ℚ) (e : Engine) : Engine :=
  let r := Forces.calculate_total_energy sqrt e.G e.bodies
  let bodies2 := r.2
  let mom := Forces.calculate_total_momentum bodies2
  let ang := Forces.calculate_total_angular_momentum bodies2 0
  { e with bodies := bodies2,
           energy_history := e.energy_history
             ++ [⟨e.time, r.1.1, r.1.2.1, r.1.2.2⟩],
           momentum_history := e.momentum_history ++ [⟨e.time, mom⟩],
           angular_momentum_history := e.angular_momentum_history
             ++ [⟨e.time, ang⟩] }

/-- Dispatch one integration step to the selected integrator, with the
engine's gravitational force calculation as the callback. -/
def integrator_step (sqrt : ℚ → ℚ) (st : IntegratorState) (dt G s2 : ℚ)
    (bodies : List Body) : List Body × IntegratorState :=
  let F : Unit → List Body → Unit × List Body :=
    fun _ bs => ((), Forces.calculate_forces sqrt G s2 bs)
  match st with
  | .euler => ((Integrators.stepEuler F dt () bodies).2, .euler)
  | .rk4 => ((Integrators.stepRK4 F dt () bodies).2, .rk4)
  | .leapfrog first =>
      let r := Integrators.stepLeapfrog F dt () bodies first
      (r.2.1, .leapfrog r.2.2)

/-- `PhysicsEngine.step`: return unchanged if the body collection is empty;
otherwise delegate to the integrator, advance `time` by `dt`, increment the
step counter and record one conservation sample. -/
def step (sqrt : ℚ → ℚ) (e : Engine) : Engine :=
  if e.bodies = [] then e
  else
    let r := integrator_step sqrt e.integrator e.dt e.G e.softening_squared e.bodies
    record_conservation_quantities sqrt
      { e with bodies := r.1, integrator := r.2,
               time := e.time + e.dt, step_count := e.step_count + 1 }

/-- The `while self.step_count < target_steps` loop of `run`, made total
with a fuel parameter: `none` means the fuel ran out with the exit
condition still false (so the unbounded Python loop has not terminated
within `fuel` iterations). -/
def runStepsLoop (sqrt : ℚ → ℚ) : ℕ → ℕ → Engine → Option Engine
  | 0, target, e => if e.step_count < target then none else some e
  | fuel + 1, target, e =>
      if e.step_count < target then runStepsLoop sqrt fuel target (step sqrt e)
      else some e

/-- The `while self.time < target_time` loop of `run`, with fuel. -/
def runDurationLoop (sqrt : ℚ → ℚ) : ℕ → ℚ → Engine → Option Engine
  | 0, target, e => if e.time < target then none else some e
  | fuel + 1, target, e =>
      if e.time < target then runDurationLoop sqrt fuel target (step sqrt e)
      else some e

/-- `PhysicsEngine.run` (callback observer omitted: it does not influence
the engine state in this model).  Raises before any `step()` when neither
`steps` nor `duration` is supplied; `steps` takes precedence; loops are
fuel-indexed, `some (some e')` = terminated with final state `e'`,
`some none` = loop still running after `fuel` iterations. -/
def run (sqrt : ℚ → ℚ) (steps : Option ℕ) (duration : Option ℚ) (fuel : ℕ)
    (e : Engine) : Except String (Option Engine) :=
  match steps, duration with
  | none, none => .error "Must specify either steps or duration"
  | some n, _ => .ok (runStepsLoop sqrt fuel (e.step_count + n) e)
  | none, some d => .ok (runDurationLoop sqrt fuel (e.time + d) e)

end Engine

/-! Concrete fixtures used to instantiate universally quantified theorems. -/

/-- A square-root stand-in for concrete instantiations (any function with
`sqrt0 0 = 0` would do). -/
def sqrt0 : ℚ → ℚ := fun _ => 0

/-- The default gravitational constant `6.67430e-11` of forces.py. -/
def Gdefault : ℚ := 667430 / 10 ^ 16

/-- A concrete body at the origin. -/
def body0 : Body :=
  { mass := 1, position := 0, velocity := 0, acceleration := 0,
    name := "A", color := "blue", radius := 1, trajectory := [0],
    kinetic_energy := 0, potential_energy := 0 }

/-- A second concrete body, displaced along `x`. -/
def body1 : Body :=
  { mass := 2, position := ⟨1, 0, 0⟩, velocity := ⟨0, 1, 0⟩, acceleration := 0,
    name := "B", color := "red", radius := 1, trajectory := [⟨1, 0, 0⟩],
    kinetic_energy := 0, potential_energy := 0 }

/-- A concrete engine with an empty body collection. -/
def engine0 : Engine :=
  { integrator := .rk4, G := Gdefault, softening_squared := 0, bodies := [],
    time := 0, step_count := 0, dt := 1, energy_history := [],
    momentum_history := [], angular_momentum_history := [] }

/-- A concrete engine whose Leapfrog integrator is Warm (`first_step` already
consumed), as after at least one completed step. -/
def engineWarm : Engine :=
  { integrator := .leapfrog false, G := Gdefault, softening_squared := 0,
    bodies := [body0, body1], time := 3, step_count := 3, dt := 1,
    energy_history := [⟨1, 0, 0, 0⟩], momentum_history := [⟨1, 0⟩],
    angular_momentum_history := [⟨1, 0⟩] }

/-! # Theorems -/

namespace Vec3

@[simp] theorem zero_x : (0 : Vec3).x = 0 := rfl
@[simp] theorem zero_y : (0 : Vec3).y = 0 := rfl
@[simp] theorem zero_z : (0 : Vec3).z = 0 := rfl
@[simp] theorem add_x (a b : Vec3) : (a + b).x = a.x + b.x := rfl
@[simp] theorem add_y (a b : Vec3) : (a + b).y = a.y + b.y := rfl
@[simp] theorem add_z (a b : Vec3) : (a + b).z = a.z + b.z := rfl
@[simp] theorem sub_x (a b : Vec3) : (a - b).x = a.x - b.x := rfl
@[simp] theorem sub_y (a b : Vec3) : (a - b).y = a.y - b.y := rfl
@[simp] theorem sub_z (a b : Vec3) : (a - b).z = a.z - b.z := rfl
@[simp] theorem neg_x (a : Vec3) : (-a).x = -a.x := rfl
@[simp] theorem neg_y (a : Vec3) : (-a).y = -a.y := rfl
@[simp] theorem neg_z (a : Vec3) : (-a).z = -a.z := rfl
@[simp] theorem smul_x (a : Vec3) (s : ℚ) : (a * s).x = a.x * s := rfl
@[simp] theorem smul_y (a : Vec3) (s : ℚ) : (a * s).y = a.y * s := rfl
@[simp] theorem smul_z (a : Vec3) (s : ℚ) : (a * s).z = a.z * s := rfl
@[simp] theorem div_x (a : Vec3) (s : ℚ) : (a / s).x = a.x / s := rfl
@[simp] theorem div_y (a : Vec3) (s : ℚ) : (a / s).y = a.y / s := rfl
@[simp] theorem div_z (a : Vec3) (s : ℚ) : (a / s).z = a.z / s := rfl

@[simp] theorem magnitude_squared_zero : magnitude_squared 0 = 0 := by
  simp [magnitude_squared]

@[simp] theorem zero_hdiv (s : ℚ) : (0 : Vec3) / s = 0 := by
  ext <;> simp

@[simp] theorem zero_hmul (s : ℚ) : (0 : Vec3) * s = 0 := by
  ext <;> simp

theorem sub_self_vec (a : Vec3) : a - a = 0 := by
  ext <;> simp

end Vec3

/-- C1 counterexample input: an engine whose Leapfrog integrator is Warm.
`reset_simulation` leaves the integrator's lifecycle flag untouched, so it
stays Warm rather than transitioning back to Cold as the claim requires. -/
theorem reset_simulation_keeps_warm_flag :
    (Engine.reset_simulation engineWarm).integrator = IntegratorState.leapfrog false ∧
      IntegratorState.leapfrog false ≠ IntegratorState.leapfrog true := by
  exact ⟨rfl, by decide⟩

/-- C1 (amended): for every engine whose integrator is the Leapfrog variant,
`reset_simulation` zeroes the simulation time and step counter, clears all
three conservation-history sequences and resets every body's trajectory to
the single entry equal to its current position, but leaves the Leapfrog
integrator's internal lifecycle flag unchanged (a Warm integrator stays
Warm; the claimed Warm → Cold transition does not happen). -/
theorem reset_simulation_spec (e : Engine) (b : Bool)
    (h : e.integrator = IntegratorState.leapfrog b) :
    (e.reset_simulation).time = 0 ∧
    (e.reset_simulation).step_count = 0 ∧
    (e.reset_simulation).energy_history = [] ∧
    (e.reset_simulation).momentum_history = [] ∧
    (e.reset_simulation).angular_momentum_history = [] ∧
    (e.reset_simulation).bodies.map Body.trajectory
      = e.bodies.map (fun b => [b.position]) ∧
    (e.reset_simulation).bodies.map Body.position = e.bodies.map Body.position ∧
    (e.reset_simulation).integrator = IntegratorState.leapfrog b := by
  refine ⟨rfl, rfl, rfl, rfl, rfl, ?_, ?_, h ▸ rfl⟩
  · simp [Engine.reset_simulation, Body.clear_trajectory]
  · simp [Engine.reset_simulation, Body.clear_trajectory]

/-- C1 witness: the amended reset behaviour at the concrete Warm engine. -/
theorem reset_simulation_spec_witness :
    (engineWarm.reset_simulation).time = 0 ∧
    (engineWarm.reset_simulation).step_count = 0 ∧
    (engineWarm.reset_simulation).energy_history = [] ∧
    (engineWarm.reset_simulation).momentum_history = [] ∧
    (engineWarm.reset_simulation).angular_momentum_history = [] ∧
    (engineWarm.reset_simulation).bodies.map Body.trajectory
      = engineWarm.bodies.map (fun b => [b.position]) ∧
    (engineWarm.reset_simulation).bodies.map Body.position
      = engineWarm.bodies.map Body.position ∧
    (engineWarm.reset_simulation).integrator = IntegratorState.leapfrog false :=
  reset_simulation_spec engineWarm false rfl

/-- C2 counterexample: constructing a `Body` with mass `-1 ≤ 0` raises no
error — the constructor performs no validation and happily produces a body
with non-positive mass. -/
theorem body_init_accepts_negative_mass :
    Body.init (-1) 0 0 "A" "blue" 1
      = Except.ok ⟨-1, 0, 0, 0, "A", "blue", 1, [0], 0, 0⟩ ∧
    ¬ (0 : ℚ) < -1 := by
  exact ⟨rfl, by norm_num⟩

/-- C2 (amended): for every mass `m ≤ 0`, constructing a `Body` succeeds
(no validation error is raised) and produces a body carrying exactly the
given non-positive mass, with zero acceleration and a one-entry trajectory
at the initial position. -/
theorem body_init_no_validation (m : ℚ) (p v : Vec3) (n c : String) (r : ℚ)
    (h : m ≤ 0) :
    Body.init m p v n c r = Except.ok ⟨m, p, v, 0, n, c, r, [p], 0, 0⟩ :=
  rfl

/-- C2 witness: the no-validation construction at mass `-1`. -/
theorem body_init_no_validation_witness :
    (-1 : ℚ) ≤ 0 ∧
      Body.init (-1) 0 0 "B" "red" 2 = Except.ok ⟨-1, 0, 0, 0, "B", "red", 2, [0], 0, 0⟩ :=
  ⟨by norm_num, body_init_no_validation (-1) 0 0 "B" "red" 2 (by norm_num)⟩

/-- C3 counterexample: `set_time_step (-1)` raises no error and changes the
engine's time step to `-1`, although `-1 ≤ 0`. -/
theorem set_time_step_accepts_negative_dt :
    Engine.set_time_step (-1) engine0 = Except.ok { engine0 with dt := -1 } ∧
      ({ engine0 with dt := -1 } : Engine).dt ≠ engine0.dt := by
  exact ⟨rfl, by decide⟩

/-- C3 (amended): `set_time_step dt` performs no validation: for every
`dt ≤ 0` it succeeds and overwrites the engine's time-step size with `dt`
(only the `dt` field changes). -/
theorem set_time_step_no_validation (dt : ℚ) (e : Engine) (h : dt ≤ 0) :
    Engine.set_time_step dt e = Except.ok { e with dt := dt } :=
  rfl

/-- C3 witness: the no-validation time-step assignment at `dt = -1`. -/
theorem set_time_step_no_validation_witness :
    (-1 : ℚ) ≤ 0 ∧
      Engine.set_time_step (-1) engine0 = Except.ok { engine0 with dt := -1 } :=
  ⟨by norm_num, set_time_step_no_validation (-1) engine0 (by norm_num)⟩

/-- C4: `run()` with neither `steps` nor `duration` returns the
configuration error before any `step()` executes: in this pure embedding
the error is produced without any successor engine state, so the
simulation time, step counter, bodies and histories of the caller's engine
are untouched. -/
theorem run_without_steps_or_duration_errors (sqrt : ℚ → ℚ) (fuel : ℕ)
    (e : Engine) :
    Engine.run sqrt none none fuel e
      = Except.error "Must specify either steps or duration" :=
  rfl

/-- C5: instrumenting the force callback with an invocation counter
(`α := ℕ`), one Euler `step()` invokes it exactly once, one RK4 `step()`
exactly four times, and a Leapfrog `step()` exactly twice when its
`first_step` flag is still set (the state in which construction leaves it)
and exactly once otherwise — and the flag is `false` after any call, so
every call after the first evaluates forces exactly once. -/
theorem force_evaluation_counts (g : List Body → List Body) (dt : ℚ)
    (bodies : List Body) (h : bodies ≠ []) :
    (Integrators.stepEuler (fun (n : ℕ) bs => (n + 1, g bs)) dt 0 bodies).1 = 1 ∧
    (Integrators.stepRK4 (fun (n : ℕ) bs => (n + 1, g bs)) dt 0 bodies).1 = 4 ∧
    (Integrators.stepLeapfrog (fun (n : ℕ) bs => (n + 1, g bs)) dt 0 bodies true).1 = 2 ∧
    (Integrators.stepLeapfrog (fun (n : ℕ) bs => (n + 1, g bs)) dt 0 bodies true).2.2
      = false ∧
    (Integrators.stepLeapfrog (fun (n : ℕ) bs => (n + 1, g bs)) dt 0 bodies false).1 = 1 ∧
    (Integrators.stepLeapfrog (fun (n : ℕ) bs => (n + 1, g bs)) dt 0 bodies false).2.2
      = false :=
  ⟨rfl, rfl, rfl, rfl, rfl, rfl⟩

/-- C5 witness: the evaluation counts at a concrete one-body list. -/
theorem force_evaluation_counts_witness :
    ([body0] ≠ ([] : List Body)) ∧
    ((Integrators.stepEuler (fun (n : ℕ) bs => (n + 1, id bs)) 1 0 [body0]).1 = 1 ∧
     (Integrators.stepRK4 (fun (n : ℕ) bs => (n + 1, id bs)) 1 0 [body0]).1 = 4 ∧
     (Integrators.stepLeapfrog (fun (n : ℕ) bs => (n + 1, id bs)) 1 0 [body0] true).1 = 2 ∧
     (Integrators.stepLeapfrog (fun (n : ℕ) bs => (n + 1, id bs)) 1 0 [body0] true).2.2
       = false ∧
     (Integrators.stepLeapfrog (fun (n : ℕ) bs => (n + 1, id bs)) 1 0 [body0] false).1 = 1 ∧
     (Integrators.stepLeapfrog (fun (n : ℕ) bs => (n + 1, id bs)) 1 0 [body0] false).2.2
       = false) :=
  ⟨List.cons_ne_nil _ _, force_evaluation_counts id 1 [body0] (List.cons_ne_nil _ _)⟩

/-- C7: two bodies at identical coordinates interact with exactly zero
force — in the unsoftened case the `r < 1e-10` numerical-singularity guard
fires, and with softening the zero separation vector scales to the zero
force vector — and their pair contributes exactly zero to the potential
energy (the `r > 1e-10` test fails since `np.sqrt(0) = 0`).  Both
computations are total: no division by zero occurs and no error is
raised. -/
theorem singularity_guard (sqrt : ℚ → ℚ) (G s2 : ℚ) (b1 b2 : Body)
    (hpos : b1.position = b2.position) (hsqrt : sqrt 0 = 0) :
    Forces.calculate_pairwise_force sqrt G s2 b1 b2 = 0 ∧
    Forces.pe_pair_term sqrt G b1 b2 = 0 := by
  constructor
  · unfold Forces.calculate_pairwise_force
    rw [hpos, sub_self]
    simp only [Vec3.magnitude_squared_zero]
    split
    · rfl
    · simp
  · unfold Forces.pe_pair_term Body.distance_to Vec3.distance_to Vec3.magnitude
    rw [hpos, sub_self, Vec3.magnitude_squared_zero, hsqrt]
    norm_num [eps10]

/-- C7 witness: the guard at two concrete coincident bodies. -/
theorem singularity_guard_witness :
    body0.position = body0.position ∧ sqrt0 0 = 0 ∧
    (Forces.calculate_pairwise_force sqrt0 Gdefault 0 body0 body0 = 0 ∧
     Forces.pe_pair_term sqrt0 Gdefault body0 body0 = 0) :=
  ⟨rfl, rfl, singularity_guard sqrt0 Gdefault 0 body0 body0 rfl rfl⟩

/-- `step()` on an engine with no bodies returns the state unchanged
(the `if not self.bodies: return` early exit). -/
theorem Engine.step_empty (sqrt : ℚ → ℚ) (e : Engine) (h : e.bodies = []) :
    Engine.step sqrt e = e := by
  simp [Engine.step, h]

/-- The steps-driven `run` loop never exits when the bodies are empty and
the step counter is below the target, however much fuel it is given. -/
theorem Engine.runStepsLoop_empty_none (sqrt : ℚ → ℚ) (e : Engine)
    (hempty : e.bodies = []) (target : ℕ) (h : e.step_count < target) :
    ∀ fuel, Engine.runStepsLoop sqrt fuel target e = none := by
  intro fuel
  induction fuel with
  | zero => simp [Engine.runStepsLoop, h]
  | succ f ih =>
      simp only [Engine.runStepsLoop, if_pos h, Engine.step_empty sqrt e hempty]
      exact ih

/-- The duration-driven `run` loop never exits when the bodies are empty
and the clock is below the target, however much fuel it is given. -/
theorem Engine.runDurationLoop_empty_none (sqrt : ℚ → ℚ) (e : Engine)
    (hempty : e.bodies = []) (target : ℚ) (h : e.time < target) :
    ∀ fuel, Engine.runDurationLoop sqrt fuel target e = none := by
  intro fuel
  induction fuel with
  | zero => simp [Engine.runDurationLoop, h]
  | succ f ih =>
      simp only [Engine.runDurationLoop, if_pos h, Engine.step_empty sqrt e hempty]
      exact ih

/-- C9: on an engine whose body collection is empty, `step()` changes
nothing (in particular neither the step counter nor the clock advances),
so `run(steps = n)` with `n ≥ 1` and `run(duration = d)` with `d > 0`
never reach their exit conditions: for every fuel bound the loop is still
running (`Except.ok none`), i.e. the Python `while` loop never
terminates. -/
theorem run_empty_never_terminates (sqrt : ℚ → ℚ) (e : Engine) (n : ℕ)
    (d : ℚ) (fuel : ℕ) (hempty : e.bodies = []) (hn : 1 ≤ n) (hd : 0 < d) :
    Engine.step sqrt e = e ∧
    Engine.run sqrt (some n) none fuel e = Except.ok none ∧
    Engine.run sqrt none (some d) fuel e = Except.ok none := by
  refine ⟨Engine.step_empty sqrt e hempty, ?_, ?_⟩
  · show Except.ok (Engine.runStepsLoop sqrt fuel (e.step_count + n) e)
      = Except.ok none
    rw [Engine.runStepsLoop_empty_none sqrt e hempty _
      (Nat.lt_add_of_pos_right hn) fuel]
  · show Except.ok (Engine.runDurationLoop sqrt fuel (e.time + d) e)
      = Except.ok none
    rw [Engine.runDurationLoop_empty_none sqrt e hempty _
      (lt_add_of_pos_right e.time hd) fuel]

/-- C9 witness: the empty concrete engine spins forever under both run
modes (shown here with fuel 5). -/
theorem run_empty_never_terminates_witness :
    engine0.bodies = [] ∧ 1 ≤ 1 ∧ (0 : ℚ) < 1 ∧
    (Engine.step sqrt0 engine0 = engine0 ∧
     Engine.run sqrt0 (some 1) none 5 engine0 = Except.ok none ∧
     Engine.run sqrt0 none (some 1) 5 engine0 = Except.ok none) :=
  ⟨rfl, le_refl 1, by norm_num,
    run_empty_never_terminates sqrt0 engine0 1 1 5 rfl (le_refl 1) (by norm_num)⟩

/-! ## List helper lemmas for the in-place-mutation model -/

theorem listModify_length (f : α → α) (n : ℕ) (l : List α) :
    (listModify f n l).length = l.length := by
  induction l generalizing n with
  | nil => cases n <;> rfl
  | cons a as ih =>
      cases n with
      | zero => rfl
      | succ m => simp [listModify, ih]

theorem getD_listModify_self (f : α → α) (l : List α) (n : ℕ)
    (h : n < l.length) (d : α) :
    (listModify f n l).getD n d = f (l.getD n d) := by
  induction l generalizing n with
  | nil => simp at h
  | cons a as ih =>
      cases n with
      | zero => rfl
      | succ m => simpa [listModify] using ih m (by simpa using h)

theorem getD_listModify_ne (f : α → α) (l : List α) (m n : ℕ) (h : m ≠ n)
    (d : α) :
    (listModify f n l).getD m d = l.getD m d := by
  induction l generalizing m n with
  | nil => cases n <;> rfl
  | cons a as ih =>
      cases n with
      | zero =>
          cases m with
          | zero => exact absurd rfl h
          | succ k => rfl
      | succ n' =>
          cases m with
          | zero => rfl
          | succ k => simpa [listModify] using ih k n' (fun hh => h (by rw [hh]))

theorem map_listModify (f : α → α) (g : α → β) (hg : ∀ a, g (f a) = g a)
    (n : ℕ) (l : List α) :
    (listModify f n l).map g = l.map g := by
  induction l generalizing n with
  | nil => cases n <;> rfl
  | cons a as ih =>
      cases n with
      | zero => simp [listModify, hg]
      | succ m => simp [listModify, ih]

theorem getD_map_lt (f : α → β) (l : List α) (i : ℕ) (h : i < l.length)
    (d : β) (d' : α) :
    (l.map f).getD i d = f (l.getD i d') := by
  induction l generalizing i with
  | nil => simp at h
  | cons a as ih =>
      cases i with
      | zero => rfl
      | succ k => simpa using ih k (by simpa using h)

/-! ## Frame conditions of `calculate_forces` -/

theorem apply_pair_map_core (sqrt : ℚ → ℚ) (G s2 : ℚ) (cur : List Body)
    (p : ℕ × ℕ) :
    (Forces.apply_pair sqrt G s2 cur p).map Body.core = cur.map Body.core := by
  have hmod : ∀ (F : Vec3) (n : ℕ) (l : List Body),
      (listModify (Body.add_force F) n l).map Body.core = l.map Body.core :=
    fun F n l => map_listModify (Body.add_force F) Body.core (fun b => rfl) n l
  simp only [Forces.apply_pair]
  rw [hmod, hmod]

theorem foldl_apply_pair_map_core (sqrt : ℚ → ℚ) (G s2 : ℚ)
    (P : List (ℕ × ℕ)) : ∀ cur : List Body,
    (P.foldl (Forces.apply_pair sqrt G s2) cur).map Body.core
      = cur.map Body.core := by
  induction P with
  | nil => intro cur; rfl
  | cons p P ih =>
      intro cur
      rw [List.foldl_cons, ih, apply_pair_map_core]

theorem calculate_forces_map_core (sqrt : ℚ → ℚ) (G s2 : ℚ) (bs : List Body) :
    (Forces.calculate_forces sqrt G s2 bs).map Body.core = bs.map Body.core := by
  unfold Forces.calculate_forces
  rw [foldl_apply_pair_map_core, List.map_map]
  exact List.map_congr_left (fun a _ => rfl)

theorem calculate_forces_length (sqrt : ℚ → ℚ) (G s2 : ℚ) (bs : List Body) :
    (Forces.calculate_forces sqrt G s2 bs).length = bs.length := by
  simpa using congrArg List.length (calculate_forces_map_core sqrt G s2 bs)

theorem core_getD_eq_of_map_core_eq {cur bs : List Body}
    (h : cur.map Body.core = bs.map Body.core) (j : ℕ) :
    Body.core (cur.getD j default) = Body.core (bs.getD j default) := by
  have hlen : cur.length = bs.length := by
    simpa using congrArg List.length h
  by_cases hj : j < cur.length
  · rw [← getD_map_lt Body.core cur j hj (Body.core default) default,
        ← getD_map_lt Body.core bs j (hlen ▸ hj) (Body.core default) default, h]
  · rw [List.getD_eq_default _ _ (le_of_not_lt hj),
        List.getD_eq_default _ _ (le_of_not_lt (fun hlt => hj (by omega)))]

theorem mass_eq_of_core_eq {b c : Body} (h : Body.core b = Body.core c) :
    b.mass = c.mass := congrArg (fun t => t.1) h

theorem position_eq_of_core_eq {b c : Body} (h : Body.core b = Body.core c) :
    b.position = c.position := congrArg (fun t => t.2.1) h

theorem velocity_eq_of_core_eq {b c : Body} (h : Body.core b = Body.core c) :
    b.velocity = c.velocity := congrArg (fun t => t.2.2.1) h

theorem trajectory_eq_of_core_eq {b c : Body} (h : Body.core b = Body.core c) :
    b.trajectory = c.trajectory := congrArg (fun t => t.2.2.2.1) h

theorem name_eq_of_core_eq {b c : Body} (h : Body.core b = Body.core c) :
    b.name = c.name := congrArg (fun t => t.2.2.2.2.1) h

theorem color_eq_of_core_eq {b c : Body} (h : Body.core b = Body.core c) :
    b.color = c.color := congrArg (fun t => t.2.2.2.2.2.1) h

theorem radius_eq_of_core_eq {b c : Body} (h : Body.core b = Body.core c) :
    b.radius = c.radius := congrArg (fun t => t.2.2.2.2.2.2.1) h

/-- C10: one call to `calculate_forces` mutates only accelerations — the
list keeps its length and, at every index, the body's mass, position,
velocity, trajectory and presentation metadata (name, color, radius) are
exactly what they were before the call. -/
theorem computeForces_frame (sqrt : ℚ → ℚ) (G s2 : ℚ) (bs : List Body)
    (i : ℕ) :
    (Forces.calculate_forces sqrt G s2 bs).length = bs.length ∧
    ((Forces.calculate_forces sqrt G s2 bs).getD i default).mass
      = (bs.getD i default).mass ∧
    ((Forces.calculate_forces sqrt G s2 bs).getD i default).position
      = (bs.getD i default).position ∧
    ((Forces.calculate_forces sqrt G s2 bs).getD i default).velocity
      = (bs.getD i default).velocity ∧
    ((Forces.calculate_forces sqrt G s2 bs).getD i default).trajectory
      = (bs.getD i default).trajectory ∧
    ((Forces.calculate_forces sqrt G s2 bs).getD i default).name
      = (bs.getD i default).name ∧
    ((Forces.calculate_forces sqrt G s2 bs).getD i default).color
      = (bs.getD i default).color ∧
    ((Forces.calculate_forces sqrt G s2 bs).getD i default).radius
      = (bs.getD i default).radius := by
  have h := core_getD_eq_of_map_core_eq (calculate_forces_map_core sqrt G s2 bs) i
  exact ⟨calculate_forces_length sqrt G s2 bs, mass_eq_of_core_eq h,
    position_eq_of_core_eq h, velocity_eq_of_core_eq h,
    trajectory_eq_of_core_eq h, name_eq_of_core_eq h, color_eq_of_core_eq h,
    radius_eq_of_core_eq h⟩

/-- C8: one Euler `step()` (shown here with the gravitational force
callback the engine supplies) performs exactly one force evaluation, at
the current positions; every body's velocity becomes `v + a·dt` with `a`
the freshly evaluated acceleration; every body's position becomes
`r + (v + a·dt)·dt`, i.e. it is advanced with the *already-updated*
velocity — the semi-implicit (symplectic-Euler) ordering, not textbook
explicit Euler — and exactly one trajectory sample (the new position) is
appended per body. -/
theorem euler_semi_implicit (sqrt : ℚ → ℚ) (G s2 dt : ℚ) (bs : List Body)
    (i : ℕ) (h : i < bs.length) :
    (Integrators.stepEuler
        (fun (_ : Unit) bodies => ((), Forces.calculate_forces sqrt G s2 bodies))
        dt () bs).2.length = bs.length ∧
    ((Integrators.stepEuler
        (fun (_ : Unit) bodies => ((), Forces.calculate_forces sqrt G s2 bodies))
        dt () bs).2.getD i default).velocity
      = (bs.getD i default).velocity
        + ((Forces.calculate_forces sqrt G s2 bs).getD i default).acceleration * dt ∧
    ((Integrators.stepEuler
        (fun (_ : Unit) bodies => ((), Forces.calculate_forces sqrt G s2 bodies))
        dt () bs).2.getD i default).position
      = (bs.getD i default).position
        + ((bs.getD i default).velocity
            + ((Forces.calculate_forces sqrt G s2 bs).getD i default).acceleration * dt)
          * dt ∧
    ((Integrators.stepEuler
        (fun (_ : Unit) bodies => ((), Forces.calculate_forces sqrt G s2 bodies))
        dt () bs).2.getD i default).trajectory
      = (bs.getD i default).trajectory
        ++ [(bs.getD i default).position
             + ((bs.getD i default).velocity
                 + ((Forces.calculate_forces sqrt G s2 bs).getD i default).acceleration
                   * dt) * dt] ∧
    (Integrators.stepEuler
        (fun (n : ℕ) bodies => (n + 1, Forces.calculate_forces sqrt G s2 bodies))
        dt 0 bs).1 = 1 := by
  have hcore := core_getD_eq_of_map_core_eq (calculate_forces_map_core sqrt G s2 bs) i
  have hv := velocity_eq_of_core_eq hcore
  have hp := position_eq_of_core_eq hcore
  have ht := trajectory_eq_of_core_eq hcore
  have hlen := calculate_forces_length sqrt G s2 bs
  have hres : (Integrators.stepEuler
      (fun (_ : Unit) bodies => ((), Forces.calculate_forces sqrt G s2 bodies))
      dt () bs).2
    = ((Forces.calculate_forces sqrt G s2 bs).map (Body.update_velocity dt)).map
        (Body.update_position dt) := rfl
  have h2 : i < (Forces.calculate_forces sqrt G s2 bs).length := hlen ▸ h
  have h1 : i < ((Forces.calculate_forces sqrt G s2 bs).map
      (Body.update_velocity dt)).length := by simpa using h2
  refine ⟨?_, ?_, ?_, ?_, rfl⟩
  · rw [hres]; simp [hlen]
  · rw [hres, getD_map_lt _ _ i h1 default default,
        getD_map_lt _ _ i h2 default default]
    simp only [Body.update_position, Body.update_velocity]
    rw [hv]
  · rw [hres, getD_map_lt _ _ i h1 default default,
        getD_map_lt _ _ i h2 default default]
    simp only [Body.update_position, Body.update_velocity]
    rw [hv, hp]
  · rw [hres, getD_map_lt _ _ i h1 default default,
        getD_map_lt _ _ i h2 default default]
    simp only [Body.update_position, Body.update_velocity]
    rw [hv, hp, ht]

/-- C8 witness: the semi-implicit Euler step at a concrete two-body list. -/
theorem euler_semi_implicit_witness :
    (0 < ([body0, body1] : List Body).length) ∧
    ((Integrators.stepEuler
        (fun (_ : Unit) bodies => ((), Forces.calculate_forces sqrt0 Gdefault 0 bodies))
        1 () [body0, body1]).2.length = ([body0, body1] : List Body).length ∧
    ((Integrators.stepEuler
        (fun (_ : Unit) bodies => ((), Forces.calculate_forces sqrt0 Gdefault 0 bodies))
        1 () [body0, body1]).2.getD 0 default).velocity
      = (([body0, body1] : List Body).getD 0 default).velocity
        + ((Forces.calculate_forces sqrt0 Gdefault 0 [body0, body1]).getD 0
            default).acceleration * (1 : ℚ) ∧
    ((Integrators.stepEuler
        (fun (_ : Unit) bodies => ((), Forces.calculate_forces sqrt0 Gdefault 0 bodies))
        1 () [body0, body1]).2.getD 0 default).position
      = (([body0, body1] : List Body).getD 0 default).position
        + ((([body0, body1] : List Body).getD 0 default).velocity
            + ((Forces.calculate_forces sqrt0 Gdefault 0 [body0, body1]).getD 0
                default).acceleration * (1 : ℚ)) * (1 : ℚ) ∧
    ((Integrators.stepEuler
        (fun (_ : Unit) bodies => ((), Forces.calculate_forces sqrt0 Gdefault 0 bodies))
        1 () [body0, body1]).2.getD 0 default).trajectory
      = (([body0, body1] : List Body).getD 0 default).trajectory
        ++ [(([body0, body1] : List Body).getD 0 default).position
             + ((([body0, body1] : List Body).getD 0 default).velocity
                 + ((Forces.calculate_forces sqrt0 Gdefault 0 [body0, body1]).getD 0
                     default).acceleration * (1 : ℚ)) * (1 : ℚ)] ∧
    (Integrators.stepEuler
        (fun (n : ℕ) bodies => (n + 1, Forces.calculate_forces sqrt0 Gdefault 0 bodies))
        1 0 [body0, body1]).1 = 1) :=
  ⟨by norm_num, euler_semi_implicit sqrt0 Gdefault 0 1 [body0, body1] 0 (by norm_num)⟩

/-! ## Decomposition of `calculate_forces` into per-pair contributions -/

theorem calculate_pairwise_force_congr (sqrt : ℚ → ℚ) (G s2 : ℚ)
    {b1 b2 c1 c2 : Body} (hm1 : b1.mass = c1.mass)
    (hp1 : b1.position = c1.position) (hm2 : b2.mass = c2.mass)
    (hp2 : b2.position = c2.position) :
    Forces.calculate_pairwise_force sqrt G s2 b1 b2
      = Forces.calculate_pairwise_force sqrt G s2 c1 c2 := by
  unfold Forces.calculate_pairwise_force
  rw [hm1, hp1, hm2, hp2]

theorem apply_pair_acc (sqrt : ℚ → ℚ) (G s2 : ℚ) (bs cur : List Body)
    (hcore : cur.map Body.core = bs.map Body.core) (p : ℕ × ℕ)
    (hp1 : p.1 < bs.length) (hp2 : p.2 < bs.length) (i : ℕ) :
    ((Forces.apply_pair sqrt G s2 cur p).getD i default).acceleration
      = (cur.getD i default).acceleration + Forces.pairContrib sqrt G s2 bs p i := by
  obtain ⟨p1, p2⟩ := p
  simp only at hp1 hp2
  have hlen : cur.length = bs.length := by simpa using congrArg List.length hcore
  have hC : ∀ j, Body.core (cur.getD j default) = Body.core (bs.getD j default) :=
    core_getD_eq_of_map_core_eq hcore
  have hF : Forces.calculate_pairwise_force sqrt G s2 (cur.getD p1 default)
        (cur.getD p2 default)
      = Forces.calculate_pairwise_force sqrt G s2 (bs.getD p1 default)
        (bs.getD p2 default) :=
    calculate_pairwise_force_congr sqrt G s2 (mass_eq_of_core_eq (hC p1))
      (position_eq_of_core_eq (hC p1)) (mass_eq_of_core_eq (hC p2))
      (position_eq_of_core_eq (hC p2))
  simp only [Forces.apply_pair, Forces.pairContrib]
  by_cases h1 : p1 = i
  · by_cases h2 : p2 = i
    · rw [h1, h2] at hF ⊢
      rw [getD_listModify_self _ _ i (by rw [listModify_length]; omega) default,
          getD_listModify_self _ _ i (by omega) default,
          if_pos rfl, if_pos rfl]
      simp only [Body.add_force]
      rw [hF, mass_eq_of_core_eq (hC i), add_assoc]
    · rw [h1] at hF ⊢
      rw [getD_listModify_ne _ _ i p2 (fun hh => h2 hh.symm) default,
          getD_listModify_self _ _ i (by omega) default,
          if_pos rfl, if_neg h2]
      simp only [Body.add_force]
      rw [hF, mass_eq_of_core_eq (hC i), add_zero]
  · by_cases h2 : p2 = i
    · rw [h2] at hF ⊢
      rw [getD_listModify_self _ _ i (by rw [listModify_length]; omega) default,
          getD_listModify_ne _ _ i p1 (fun hh => h1 hh.symm) default,
          if_neg h1, if_pos rfl]
      simp only [Body.add_force]
      rw [hF, mass_eq_of_core_eq (hC i), zero_add]
    · rw [getD_listModify_ne _ _ i p2 (fun hh => h2 hh.symm) default,
          getD_listModify_ne _ _ i p1 (fun hh => h1 hh.symm) default,
          if_neg h1, if_neg h2]
      simp

theorem foldl_apply_pair_acc (sqrt : ℚ → ℚ) (G s2 : ℚ) (bs : List Body)
    (P : List (ℕ × ℕ)) : ∀ cur : List Body,
    cur.map Body.core = bs.map Body.core →
    (∀ p ∈ P, p.1 < bs.length ∧ p.2 < bs.length) →
    ∀ i : ℕ, ((P.foldl (Forces.apply_pair sqrt G s2) cur).getD i default).acceleration
      = (cur.getD i default).acceleration
        + (P.map (fun p => Forces.pairContrib sqrt G s2 bs p i)).sum := by
  induction P with
  | nil => intro cur hcore hP i; simp
  | cons p P ih =>
      intro cur hcore hP i
      rw [List.foldl_cons,
          ih (Forces.apply_pair sqrt G s2 cur p)
            (by rw [apply_pair_map_core]; exact hcore)
            (fun q hq => hP q (List.mem_cons_of_mem _ hq)) i,
          apply_pair_acc sqrt G s2 bs cur hcore p
            (hP p (List.mem_cons_self _ _)).1 (hP p (List.mem_cons_self _ _)).2 i,
          List.map_cons, List.sum_cons, add_assoc]

theorem mem_pairsUpTo {n : ℕ} {p : ℕ × ℕ} (hp : p ∈ pairsUpTo n) :
    p.1 < p.2 ∧ p.2 < n := by
  unfold pairsUpTo at hp
  rw [List.mem_flatten] at hp
  obtain ⟨l, hl, hpl⟩ := hp
  rw [List.mem_map] at hl
  obtain ⟨a, ha, rfl⟩ := hl
  rw [List.mem_map] at hpl
  obtain ⟨j, hj, rfl⟩ := hpl
  rw [List.mem_range] at ha
  rw [List.mem_range'_1] at hj
  exact ⟨by simp; omega, by simp; omega⟩

theorem getD_map_reset_acc (bs : List Body) (i : ℕ) :
    ((bs.map Body.reset_forces).getD i default).acceleration = 0 := by
  by_cases hi : i < bs.length
  · rw [getD_map_lt Body.reset_forces bs i hi default default]; rfl
  · rw [List.getD_eq_default _ _ (by simpa using le_of_not_lt hi)]; rfl

theorem calculate_forces_acc_sum (sqrt : ℚ → ℚ) (G s2 : ℚ) (bs : List Body)
    (i : ℕ) :
    ((Forces.calculate_forces sqrt G s2 bs).getD i default).acceleration
      = ((pairsUpTo bs.length).map
          (fun p => Forces.pairContrib sqrt G s2 bs p i)).sum := by
  unfold Forces.calculate_forces
  rw [foldl_apply_pair_acc sqrt G s2 bs (pairsUpTo bs.length)
      (bs.map Body.reset_forces)
      (by rw [List.map_map]; exact List.map_congr_left fun a _ => rfl)
      (fun p hp => ⟨lt_trans (mem_pairsUpTo hp).1 (mem_pairsUpTo hp).2,
        (mem_pairsUpTo hp).2⟩) i,
      getD_map_reset_acc, zero_add]

theorem sum_map_ite_eq_of_nodup {M : Type} [AddCommMonoid M] (l : List ℕ)
    (hl : l.Nodup) (i : ℕ) (c : M) :
    (l.map (fun j => if j = i then c else 0)).sum = if i ∈ l then c else 0 := by
  induction l with
  | nil => simp
  | cons a l ih =>
      rw [List.map_cons, List.sum_cons, ih (List.Nodup.of_cons hl)]
      by_cases ha : a = i
      · have hnotmem : i ∉ l := by
          rw [← ha]; exact (List.nodup_cons.mp hl).1
        rw [if_pos ha, if_neg hnotmem, if_pos (by rw [← ha]; exact List.mem_cons_self a l),
            add_zero]
      · rw [if_neg ha]
        by_cases hi : i ∈ l
        · rw [if_pos hi, if_pos (List.mem_cons_of_mem _ hi), zero_add]
        · rw [if_neg hi,
              if_neg (fun hmem => (List.mem_cons.mp hmem).elim
                (fun hh => ha hh.symm) hi), add_zero]

theorem inner_sum_eval (sqrt : ℚ → ℚ) (G s2 : ℚ) (bs : List Body) (i : ℕ)
    (hi : i < bs.length) (a : ℕ) (ha : a < bs.length) :
    ((List.range' (a + 1) (bs.length - (a + 1))).map
        (fun j => Forces.pairContrib sqrt G s2 bs (a, j) i)).sum
      = if a = i then
          ((List.range' (i + 1) (bs.length - (i + 1))).map
            (fun j => Forces.forceOn sqrt G s2 bs i j
              / (bs.getD i default).mass)).sum
        else if a < i then
          Forces.forceOn sqrt G s2 bs i a / (bs.getD i default).mass
        else 0 := by
  by_cases hai : a = i
  · rw [if_pos hai, hai]
    refine congrArg List.sum (List.map_congr_left fun j hj => ?_)
    rw [List.mem_range'_1] at hj
    have hij : i < j := by omega
    simp only [Forces.pairContrib, Forces.forceOn]
    simp [hij, (show ¬ j = i by omega)]
  · rw [if_neg hai]
    have hmapeq : (List.range' (a + 1) (bs.length - (a + 1))).map
          (fun j => Forces.pairContrib sqrt G s2 bs (a, j) i)
        = (List.range' (a + 1) (bs.length - (a + 1))).map
          (fun j => if j = i then
            -(Forces.calculate_pairwise_force sqrt G s2 (bs.getD a default)
                (bs.getD i default)) / (bs.getD i default).mass
          else 0) := by
      refine List.map_congr_left fun j hj => ?_
      simp only [Forces.pairContrib]
      rw [if_neg hai, zero_add]
      by_cases hji : j = i
      · rw [if_pos hji, if_pos hji, hji]
      · rw [if_neg hji, if_neg hji]
    rw [hmapeq, sum_map_ite_eq_of_nodup _ (List.nodup_range' _ _) i]
    by_cases hal : a < i
    · rw [if_pos (List.mem_range'_1.mpr ⟨by omega, by omega⟩), if_pos hal]
      simp only [Forces.forceOn]
      rw [if_neg (by omega : ¬ i < a), if_pos hal]
    · rw [if_neg (fun hmem => hal (by
          rw [List.mem_range'_1] at hmem
          omega)), if_neg hal]

theorem pairContrib_sum_eq_forceOn_sum (sqrt : ℚ → ℚ) (G s2 : ℚ)
    (bs : List Body) (i : ℕ) (hi : i < bs.length) :
    ((pairsUpTo bs.length).map (fun p => Forces.pairContrib sqrt G s2 bs p i)).sum
      = ((List.range bs.length).map
          (fun j => Forces.forceOn sqrt G s2 bs i j / (bs.getD i default).mass)).sum := by
  unfold pairsUpTo
  rw [List.map_flatten, List.sum_flatten, List.map_map, List.map_map]
  have hout : ((List.range bs.length).map
      ((List.sum ∘ List.map (fun p => Forces.pairContrib sqrt G s2 bs p i)) ∘
        fun a => List.map (fun j => (a, j)) (List.range' (a + 1) (bs.length - (a + 1)))))
    = ((List.range bs.length).map (fun a =>
        if a = i then
          ((List.range' (i + 1) (bs.length - (i + 1))).map
            (fun j => Forces.forceOn sqrt G s2 bs i j
              / (bs.getD i default).mass)).sum
        else if a < i then
          Forces.forceOn sqrt G s2 bs i a / (bs.getD i default).mass
        else 0)) := by
    refine List.map_congr_left fun a ha => ?_
    rw [List.mem_range] at ha
    simpa [Function.comp] using inner_sum_eval sqrt G s2 bs i hi a ha
  rw [hout]
  have hsplit : List.range bs.length
      = List.range' 0 i ++ i :: List.range' (i + 1) (bs.length - (i + 1)) := by
    have h2 : i :: List.range' (i + 1) (bs.length - (i + 1))
        = List.range' i (bs.length - i) := by
      rw [← List.range'_succ,
          show (bs.length - (i + 1)) + 1 = bs.length - i from by omega]
    rw [h2, List.range_eq_range']
    have h3 := List.range'_append_1 0 i (bs.length - i)
    rw [Nat.zero_add] at h3
    rw [h3, show bs.length - i + i = bs.length from by omega]
  rw [hsplit, List.map_append, List.sum_append, List.map_cons, List.sum_cons,
      List.map_append, List.sum_append, List.map_cons, List.sum_cons]
  have hlow : (List.range' 0 i).map (fun a =>
        if a = i then
          ((List.range' (i + 1) (bs.length - (i + 1))).map
            (fun j => Forces.forceOn sqrt G s2 bs i j
              / (bs.getD i default).mass)).sum
        else if a < i then
          Forces.forceOn sqrt G s2 bs i a / (bs.getD i default).mass
        else 0)
      = (List.range' 0 i).map
        (fun j => Forces.forceOn sqrt G s2 bs i j / (bs.getD i default).mass) := by
    refine List.map_congr_left fun a ha => ?_
    rw [List.mem_range'_1] at ha
    rw [if_neg (by omega : ¬ a = i), if_pos (by omega : a < i)]
  have hzero : ((List.range' (i + 1) (bs.length - (i + 1))).map (fun a =>
        if a = i then
          ((List.range' (i + 1) (bs.length - (i + 1))).map
            (fun j => Forces.forceOn sqrt G s2 bs i j
              / (bs.getD i default).mass)).sum
        else if a < i then
          Forces.forceOn sqrt G s2 bs i a / (bs.getD i default).mass
        else 0)).sum = 0 := by
    refine List.sum_eq_zero fun x hx => ?_
    obtain ⟨a, ha, rfl⟩ := List.mem_map.mp hx
    rw [List.mem_range'_1] at ha
    rw [if_neg (by omega : ¬ a = i), if_neg (by omega : ¬ a < i)]
  have hTi : Forces.forceOn sqrt G s2 bs i i / (bs.getD i default).mass = 0 := by
    simp only [Forces.forceOn]
    rw [if_neg (lt_irrefl i), if_neg (lt_irrefl i)]
    exact Vec3.zero_hdiv _
  rw [hlow, hzero, hTi, if_pos rfl, add_zero, zero_add]
/-- C6: Newton's third law is structural in `calculate_forces`: the force
the call contributes to body `i` on account of body `j` is the exact
negation of the force it contributes to body `j` on account of body `i`
(the pairwise vector is computed once per unordered pair and applied with
opposite signs), and the acceleration the call leaves on body `i` is
exactly the sum over all partners `k` of that per-pair force divided by
body `i`'s mass. -/
theorem newton_third_law (sqrt : ℚ → ℚ) (G s2 : ℚ) (bs : List Body)
    (i j : ℕ) (hi : i < bs.length) (hj : j < bs.length) :
    Forces.forceOn sqrt G s2 bs i j = -(Forces.forceOn sqrt G s2 bs j i) ∧
    ((Forces.calculate_forces sqrt G s2 bs).getD i default).acceleration
      = ((List.range bs.length).map
          (fun k => Forces.forceOn sqrt G s2 bs i k
            / (bs.getD i default).mass)).sum := by
  constructor
  · unfold Forces.forceOn
    rcases lt_trichotomy i j with h | h | h
    · rw [if_pos h, if_neg (by omega : ¬ j < i), if_pos h, neg_neg]
    · rw [if_neg (by omega : ¬ i < j), if_neg (by omega : ¬ j < i),
          if_neg (by omega : ¬ j < i), if_neg (by omega : ¬ i < j), neg_zero]
    · rw [if_neg (by omega : ¬ i < j), if_pos h, if_pos h]
  · rw [calculate_forces_acc_sum, pairContrib_sum_eq_forceOn_sum sqrt G s2 bs i hi]

/-- C6 witness: the per-pair antisymmetry and acceleration decomposition
at a concrete two-body list. -/
theorem newton_third_law_witness :
    (0 < ([body0, body1] : List Body).length
      ∧ 1 < ([body0, body1] : List Body).length) ∧
    (Forces.forceOn sqrt0 Gdefault 0 [body0, body1] 0 1
       = -(Forces.forceOn sqrt0 Gdefault 0 [body0, body1] 1 0) ∧
     ((Forces.calculate_forces sqrt0 Gdefault 0 [body0, body1]).getD 0
        default).acceleration
       = ((List.range ([body0, body1] : List Body).length).map
           (fun k => Forces.forceOn sqrt0 Gdefault 0 [body0, body1] 0 k
             / (([body0, body1] : List Body).getD 0 default).mass)).sum) :=
  ⟨⟨by norm_num, by norm_num⟩,
    newton_third_law sqrt0 Gdefault 0 [body0, body1] 0 1 (by norm_num) (by norm_num)⟩
